import Mathlib

/-!
Verification of the colormap, ticker and axis-fit core of `implot3d_internal.h`
(ImPlot3D). The C++ structures are shallowly embedded: `ImU32` values are
natural numbers with arithmetic reduced modulo `2^32` where the C code can wrap,
`ImVector`s are Lean lists, `ImGuiTextBuffer` is a list of characters, and
`ImGuiStorage` is an association list. Indices that are C `int`s are `Nat`
where the code only ever uses non-negative values and `Int` where the sentinel
`-1` can occur. The C `float` computations of `LerpTable` are embedded over `ℚ`
(exact arithmetic), with the C truncating cast `(int)` embedded as truncation
toward zero.
-/

namespace ImPlot3D

/-- The modulus of `ImU32` arithmetic. -/
def U32 : Nat := 4294967296

/-- Shallow embedding of `ImMixU32` (the default, non-`IMPLOT_MIX64` branch):
mix colors `a` and `b` by factor `s`. Callers of this helper in the repository
always pass `s ≤ 255`, so the Nat subtraction `256 - s` agrees with the C
unsigned subtraction. -/
def ImMixU32 (a b s : Nat) : Nat :=
  let af := 256 - s
  let bf := s
  let al := a &&& 0x00ff00ff
  let ah := (a &&& 0xff00ff00) >>> 8
  let bl := b &&& 0x00ff00ff
  let bh := (b &&& 0xff00ff00) >>> 8
  let ml := (al * af + bl * bf) % U32
  let mh := (ah * af + bh * bf) % U32
  (mh &&& 0xff00ff00) ||| ((ml &&& 0xff00ff00) >>> 8)

/-- Shallow embedding of `ImClamp` on C `int`s. -/
def ImClamp (v mn mx : Int) : Int :=
  if v < mn then mn else if mx < v then mx else v

/-- The C cast `(int)` applied to a real value: truncation toward zero. -/
def cCastInt (q : ℚ) : Int :=
  if q < 0 then -Int.floor (-q) else Int.floor q

/-- Shallow embedding of `ImPlot3DColormapData` (colormap registry storage).
`Map` maps the `ImGuiID` hash of a name to the colormap index. -/
structure ImPlot3DColormapData where
  Keys : List Nat
  KeyCounts : List Nat
  KeyOffsets : List Nat
  Tables : List Nat
  TableSizes : List Nat
  TableOffsets : List Nat
  Text : List Char
  TextOffsets : List Nat
  Quals : List Bool
  Map : List (Nat × Nat)
  Count : Nat
deriving DecidableEq

namespace ImPlot3DColormapData

/-- The freshly constructed registry (`ImPlot3DColormapData()` zeroes `Count`;
all vectors start empty). -/
def empty : ImPlot3DColormapData :=
  ⟨[], [], [], [], [], [], [], [], [], [], 0⟩

/-- `IsQual`: whether colormap `cmap` is qualitative. -/
def IsQual (d : ImPlot3DColormapData) (cmap : Nat) : Bool :=
  d.Quals.getD cmap false

/-- `GetKeyCount`: number of keys of colormap `cmap`. -/
def GetKeyCount (d : ImPlot3DColormapData) (cmap : Nat) : Nat :=
  d.KeyCounts.getD cmap 0

/-- `GetKeys`: the key segment of colormap `cmap`
(`&Keys[KeyOffsets[cmap]]`, of length `KeyCounts[cmap]`). -/
def GetKeys (d : ImPlot3DColormapData) (cmap : Nat) : List Nat :=
  (d.Keys.drop (d.KeyOffsets.getD cmap 0)).take (d.KeyCounts.getD cmap 0)

/-- `GetKeyColor`: `Keys[KeyOffsets[cmap] + idx]`. -/
def GetKeyColor (d : ImPlot3DColormapData) (cmap idx : Nat) : Nat :=
  d.Keys.getD (d.KeyOffsets.getD cmap 0 + idx) 0

/-- `GetTable`: the dense-table segment of colormap `cmap`. -/
def GetTable (d : ImPlot3DColormapData) (cmap : Nat) : List Nat :=
  (d.Tables.drop (d.TableOffsets.getD cmap 0)).take (d.TableSizes.getD cmap 0)

/-- `GetTableSize`: `TableSizes[cmap]`. -/
def GetTableSize (d : ImPlot3DColormapData) (cmap : Nat) : Nat :=
  d.TableSizes.getD cmap 0

/-- `GetTableColor`: `Tables[TableOffsets[cmap] + idx]`. -/
def GetTableColor (d : ImPlot3DColormapData) (cmap idx : Nat) : Nat :=
  d.Tables.getD (d.TableOffsets.getD cmap 0 + idx) 0

/-- `GetIndex`: `Map.GetInt(ImHashStr(name), -1)`. The host toolkit's string
hash `ImHashStr` is an external collaborator and is passed as a parameter. -/
def GetIndex (hash : String → Nat) (d : ImPlot3DColormapData) (name : String) : Int :=
  match d.Map.lookup (hash name) with
  | some v => (v : Int)
  | none => -1

/-- `GetName`: `cmap < Count ? Text.Buf.Data + TextOffsets[cmap] : nullptr`;
reading the C string stops at the first NUL character. -/
def GetName (d : ImPlot3DColormapData) (cmap : Nat) : Option (List Char) :=
  if cmap < d.Count then
    some ((d.Text.drop (d.TextOffsets.getD cmap 0)).takeWhile (fun c => c ≠ Char.ofNat 0))
  else
    none

/-- The dense-table contents `_AppendTable` pushes for one colormap with key
segment `keys`: the keys themselves when qualitative, otherwise 255 mixed
samples per adjacent key pair followed by the last key verbatim. -/
def tableFor (keys : List Nat) (qual : Bool) : List Nat :=
  if qual then keys
  else
    ((List.range (keys.length - 1)).flatMap (fun i =>
      (List.range 255).map (fun s => ImMixU32 (keys.getD i 0) (keys.getD (i + 1) 0) s)))
    ++ [keys.getLastD 0]

/-- The table size `_AppendTable` records for one colormap: the key count when
qualitative, otherwise `max_size = 255 * (key_count - 1) + 1`. -/
def tableSizeFor (keys : List Nat) (qual : Bool) : Nat :=
  if qual then keys.length else 255 * (keys.length - 1) + 1

/-- Shallow embedding of `_AppendTable(cmap)`: records the current end of
`Tables` as the new colormap's offset and pushes its dense table and size. -/
def _AppendTable (d : ImPlot3DColormapData) (cmap : Nat) : ImPlot3DColormapData :=
  { d with
    TableOffsets := d.TableOffsets ++ [d.Tables.length],
    Tables := d.Tables ++ tableFor (GetKeys d cmap) (IsQual d cmap),
    TableSizes := d.TableSizes ++ [tableSizeFor (GetKeys d cmap) (IsQual d cmap)] }

/-- Shallow embedding of `Append(name, keys, count, qual)`: rejects an already
registered name with `-1`, otherwise pushes the key/name/qual records, maps the
name hash to the fresh index, builds the dense table and returns the index. -/
def Append (hash : String → Nat) (d : ImPlot3DColormapData) (name : String)
    (keys : List Nat) (count : Nat) (qual : Bool) : ImPlot3DColormapData × Int :=
  if GetIndex hash d name ≠ -1 then (d, -1)
  else
    let idx := d.Count
    let d1 : ImPlot3DColormapData :=
      { d with
        KeyOffsets := d.KeyOffsets ++ [d.Keys.length],
        KeyCounts := d.KeyCounts ++ [count],
        Keys := d.Keys ++ keys.take count,
        TextOffsets := d.TextOffsets ++ [d.Text.length],
        Text := d.Text ++ name.data ++ [Char.ofNat 0],
        Quals := d.Quals ++ [qual],
        Map := (hash name, idx) :: d.Map,
        Count := d.Count + 1 }
    (_AppendTable d1 idx, (idx : Int))

/-- The registry state after a successful `Append` (duplicate-name guard not
taken), written out in one record; `Append_success` proves that `Append`
produces exactly this state. -/
def appendState (hash : String → Nat) (d : ImPlot3DColormapData) (name : String)
    (keys : List Nat) (count : Nat) (qual : Bool) : ImPlot3DColormapData :=
  { Keys := d.Keys ++ keys.take count,
    KeyCounts := d.KeyCounts ++ [count],
    KeyOffsets := d.KeyOffsets ++ [d.Keys.length],
    Tables := d.Tables ++ tableFor (keys.take count) qual,
    TableSizes := d.TableSizes ++ [tableSizeFor (keys.take count) qual],
    TableOffsets := d.TableOffsets ++ [d.Tables.length],
    Text := d.Text ++ name.data ++ [Char.ofNat 0],
    TextOffsets := d.TextOffsets ++ [d.Text.length],
    Quals := d.Quals ++ [qual],
    Map := (hash name, d.Count) :: d.Map,
    Count := d.Count + 1 }

/-- Shallow embedding of `RebuildTables()`: clears the table storage and runs
`_AppendTable` for every registered colormap in order. -/
def RebuildTables (d : ImPlot3DColormapData) : ImPlot3DColormapData :=
  (List.range d.Count).foldl (fun acc i => _AppendTable acc i)
    { d with Tables := [], TableSizes := [], TableOffsets := [] }

/-- Shallow embedding of `SetKeyColor(cmap, idx, value)`: overwrites
`Keys[KeyOffsets[cmap] + idx]` and rebuilds the tables. -/
def SetKeyColor (d : ImPlot3DColormapData) (cmap idx value : Nat) : ImPlot3DColormapData :=
  RebuildTables { d with Keys := d.Keys.set (d.KeyOffsets.getD cmap 0 + idx) value }

/-- The index selected by `LerpTable` for a table of size `siz`:
`Quals[cmap] ? ImClamp((int)(siz * t), 0, siz - 1) : (int)((siz - 1) * t + 0.5f)`. -/
def lerpIdx (qual : Bool) (siz : Nat) (t : ℚ) : Int :=
  if qual then ImClamp (cCastInt ((siz : ℚ) * t)) 0 ((siz : Int) - 1)
  else cCastInt (((siz : ℚ) - 1) * t + 1 / 2)

/-- Shallow embedding of `LerpTable(cmap, t)`: looks up
`Tables[TableOffsets[cmap] + idx]` at the selected index. -/
def LerpTable (d : ImPlot3DColormapData) (cmap : Nat) (t : ℚ) : Nat :=
  let off := d.TableOffsets.getD cmap 0
  let siz := d.TableSizes.getD cmap 0
  let idx := lerpIdx (d.Quals.getD cmap false) siz t
  d.Tables.getD ((off : Int) + idx).toNat 0

/-- Basic length bookkeeping of the registry: every per-colormap vector has
exactly `Count` entries. -/
def WFlen (d : ImPlot3DColormapData) : Prop :=
  d.KeyOffsets.length = d.Count ∧ d.KeyCounts.length = d.Count ∧
  d.Quals.length = d.Count ∧ d.TableOffsets.length = d.Count ∧
  d.TableSizes.length = d.Count ∧ d.TextOffsets.length = d.Count

instance (d : ImPlot3DColormapData) : Decidable (WFlen d) := by
  unfold WFlen; infer_instance

/-- Offsets of consecutive segments with the given sizes: entry `i` is the sum
of the first `i` sizes. -/
def offsetsOf (sizes : List Nat) : List Nat :=
  (List.range sizes.length).map (fun i => (sizes.take i).sum)

/-- The per-colormap table sizes recomputed from the key data. -/
def canonSizes (d : ImPlot3DColormapData) : List Nat :=
  (List.range d.Count).map (fun i => tableSizeFor (GetKeys d i) (IsQual d i))

/-- The dense-table storage recomputed from the key data. -/
def canonTables (d : ImPlot3DColormapData) : List Nat :=
  (List.range d.Count).flatMap (fun i => tableFor (GetKeys d i) (IsQual d i))

/-- Segmented well-formedness of the key storage: consecutive key segments, and
the bookkeeping lengths of `WFlen`. -/
def SegWF (d : ImPlot3DColormapData) : Prop :=
  WFlen d ∧ d.KeyOffsets = offsetsOf d.KeyCounts ∧ d.Keys.length = d.KeyCounts.sum

instance (d : ImPlot3DColormapData) : Decidable (SegWF d) := by
  unfold SegWF; infer_instance

/-- Full consistency of the registry: segmented keys plus table storage equal
to what rebuilding from the keys produces. Every state reached from `empty`
through the registry's operations satisfies this. -/
def Consistent (d : ImPlot3DColormapData) : Prop :=
  SegWF d ∧ d.TableOffsets = offsetsOf (canonSizes d) ∧
  d.TableSizes = canonSizes d ∧ d.Tables = canonTables d

instance (d : ImPlot3DColormapData) : Decidable (Consistent d) := by
  unfold Consistent; infer_instance

end ImPlot3DColormapData

/-- Shallow embedding of `ImPlot3DTick`. `LabelSize` (a host-toolkit text
measurement, `ImGui::CalcTextSize`) is omitted: it is an external collaborator
and no verified property reads it. The C constructor leaves `Idx`
uninitialized; it is modelled as 0 here and is overwritten by `AddTick`. -/
structure ImPlot3DTick where
  PlotPos : ℚ
  Major : Bool
  ShowLabel : Bool
  TextOffset : Int
  Idx : Nat
deriving DecidableEq

/-- The `ImPlot3DTick(value, major, show_label)` constructor
(`TextOffset = -1`). -/
def mkTick (value : ℚ) (major show_label : Bool) : ImPlot3DTick :=
  ⟨value, major, show_label, -1, 0⟩

/-- Shallow embedding of `ImPlot3DTicker`. -/
structure ImPlot3DTicker where
  Ticks : List ImPlot3DTick
  TextBuffer : List Char
deriving DecidableEq

namespace ImPlot3DTicker

/-- The ticker after `Reset()` (and the fresh constructor, which calls
`Reset()`): both the tick vector and the text buffer are empty. -/
def reset : ImPlot3DTicker := ⟨[], []⟩

/-- Shallow embedding of the core `AddTick(ImPlot3DTick tick)` overload:
stamps `tick.Idx` with the current tick count and appends. -/
def AddTick (tk : ImPlot3DTicker) (tick : ImPlot3DTick) : ImPlot3DTicker :=
  { tk with Ticks := tk.Ticks ++ [{ tick with Idx := tk.Ticks.length }] }

/-- Shallow embedding of `AddTick(value, major, show_label, const char* label)`:
optionally records the label text (with its NUL terminator) in the text buffer,
then delegates to the core `AddTick`. -/
def AddTickLabel (tk : ImPlot3DTicker) (value : ℚ) (major show_label : Bool)
    (label : Option String) : ImPlot3DTicker :=
  match label, show_label with
  | some l, true =>
      AddTick { tk with TextBuffer := tk.TextBuffer ++ l.data ++ [Char.ofNat 0] }
        { mkTick value major show_label with TextOffset := (tk.TextBuffer.length : Int) }
  | _, _ => AddTick tk (mkTick value major show_label)

/-- Shallow embedding of
`AddTick(value, major, show_label, formatter, data)`: the formatter callback is
a parameter writing into a 32-byte buffer, so its output is truncated to at
most 31 characters before the NUL; then delegates to the core `AddTick`. -/
def AddTickFormatted (tk : ImPlot3DTicker) (value : ℚ) (major show_label : Bool)
    (formatter : Option (ℚ → String)) : ImPlot3DTicker :=
  match formatter, show_label with
  | some f, true =>
      AddTick
        { tk with TextBuffer := tk.TextBuffer ++ ((f value).data.take 31) ++ [Char.ofNat 0] }
        { mkTick value major show_label with TextOffset := (tk.TextBuffer.length : Int) }
  | _, _ => AddTick tk (mkTick value major show_label)

/-- `TickCount()`. -/
def TickCount (tk : ImPlot3DTicker) : Nat := tk.Ticks.length

/-- One call into the ticker since the last `Reset`: any of the three
`AddTick` overloads. -/
inductive TickCall where
  | core (tick : ImPlot3DTick)
  | labeled (value : ℚ) (major show_label : Bool) (label : Option String)
  | formatted (value : ℚ) (major show_label : Bool) (fmt : Option (ℚ → String))

/-- Execute one `AddTick` call. -/
def step (tk : ImPlot3DTicker) : TickCall → ImPlot3DTicker
  | TickCall.core tick => AddTick tk tick
  | TickCall.labeled v m s l => AddTickLabel tk v m s l
  | TickCall.formatted v m s f => AddTickFormatted tk v m s f

/-- Execute a sequence of `AddTick` calls. -/
def runCalls (tk : ImPlot3DTicker) (calls : List TickCall) : ImPlot3DTicker :=
  calls.foldl step tk

end ImPlot3DTicker

/-- A C `float`/`double` value as the axis-fit logic distinguishes them: a
finite value (embedded exactly as a rational) or one of the two infinities
(`HUGE_VAL` seeds). NaN does not arise in the modelled operations. -/
inductive FitFloat where
  | negInf
  | finite (q : ℚ)
  | posInf
deriving DecidableEq

namespace FitFloat

/-- The `<=` order of the embedded float values. -/
def le : FitFloat → FitFloat → Prop
  | negInf, _ => True
  | _, posInf => True
  | finite a, finite b => a ≤ b
  | _, _ => False

instance : ∀ a b : FitFloat, Decidable (le a b) := by
  intro a b; cases a <;> cases b <;> unfold le <;> infer_instance

/-- Finiteness of an embedded float value. -/
def isFinite : FitFloat → Prop
  | finite _ => True
  | _ => False

instance : ∀ a : FitFloat, Decidable (isFinite a) := by
  intro a; cases a <;> unfold isFinite <;> infer_instance

/-- `ImMin` on the embedded float values. -/
def fmin (a b : FitFloat) : FitFloat := if le a b then a else b

/-- `ImMax` on the embedded float values. -/
def fmax (a b : FitFloat) : FitFloat := if le a b then b else a

end FitFloat

/-- Shallow embedding of `ImPlot3DRange` over the embedded float values. -/
structure ImPlot3DRange where
  Min : FitFloat
  Max : FitFloat
deriving DecidableEq

/-- Shallow embedding of the fit-relevant state of `ImPlot3DAxis`: the
displayed `Range` and the fit accumulator `FitExtents`, which the constructor
seeds to `[HUGE_VAL, -HUGE_VAL]`. -/
structure ImPlot3DAxis where
  Range : ImPlot3DRange
  FitExtents : ImPlot3DRange
deriving DecidableEq

namespace ImPlot3DAxis

/-- The constructor's seed for the fit accumulator: `[+∞, -∞]`. -/
def fitSeed : ImPlot3DRange := ⟨FitFloat.posInf, FitFloat.negInf⟩

/-- The accumulator is non-degenerate: `runningMin <= runningMax`, both
finite. -/
def FitValid (r : ImPlot3DRange) : Prop :=
  FitFloat.le r.Min r.Max ∧ FitFloat.isFinite r.Min ∧ FitFloat.isFinite r.Max

instance (r : ImPlot3DRange) : Decidable (FitValid r) := by
  unfold FitValid; infer_instance

/-- Modelled from the spec: `ExtendFit(value)` (defined in `implot3d.cpp`,
which is not part of the sources) widens the fit accumulator to include
`value`. -/
def ExtendFit (ax : ImPlot3DAxis) (value : ℚ) : ImPlot3DAxis :=
  { ax with
    FitExtents :=
      ⟨FitFloat.fmin ax.FitExtents.Min (FitFloat.finite value),
       FitFloat.fmax ax.FitExtents.Max (FitFloat.finite value)⟩ }

/-- Modelled from the spec: `ApplyFit()` (defined in `implot3d.cpp`, which is
not part of the sources) replaces `Range` with the accumulator exactly when the
accumulator is non-degenerate, and always re-seeds the accumulator to
`[+∞, -∞]`. -/
def ApplyFit (ax : ImPlot3DAxis) : ImPlot3DAxis :=
  { Range := if FitValid ax.FitExtents then ax.FitExtents else ax.Range,
    FitExtents := fitSeed }

end ImPlot3DAxis

/-! General list helper lemmas used to reason about the segmented storage. -/

theorem getD_append_lt {α : Type} (l l' : List α) (i : Nat) (d : α) (h : i < l.length) :
    (l ++ l').getD i d = l.getD i d := by
  rw [List.getD_eq_getElem?_getD, List.getD_eq_getElem?_getD, List.getElem?_append, if_pos h]

theorem getD_append_add {α : Type} (l l' : List α) (i : Nat) (d : α) :
    (l ++ l').getD (l.length + i) d = l'.getD i d := by
  rw [List.getD_eq_getElem?_getD, List.getD_eq_getElem?_getD, List.getElem?_append,
    if_neg (by omega), Nat.add_sub_cancel_left]

theorem getD_concat_self {α : Type} (l : List α) (a : α) (d : α) :
    (l ++ [a]).getD l.length d = a := by
  rw [List.getD_eq_getElem?_getD, List.getElem?_append, if_neg (by omega)]
  simp

theorem getD_slice (l : List Nat) (o c t : Nat) (ht : t < c) :
    ((l.drop o).take c).getD t 0 = l.getD (o + t) 0 := by
  rw [List.getD_eq_getElem?_getD, List.getD_eq_getElem?_getD, List.getElem?_take, if_pos ht,
    List.getElem?_drop]

theorem slice_set_outside (l : List Nat) (n o c : Nat) (v : Nat)
    (h : n < o ∨ o + c ≤ n) :
    (((l.set n v).drop o).take c) = ((l.drop o).take c) := by
  apply List.ext_getElem?
  intro i
  rw [List.getElem?_take, List.getElem?_take]
  by_cases hic : i < c
  · rw [if_pos hic, if_pos hic, List.getElem?_drop, List.getElem?_drop, List.getElem?_set,
      if_neg (by omega)]
  · rw [if_neg hic, if_neg hic]

theorem getD_set_self (l : List Nat) (n v : Nat) (h : n < l.length) :
    (l.set n v).getD n 0 = v := by
  rw [List.getD_eq_getElem?_getD, List.getElem?_set, if_pos rfl, if_pos h]
  rfl

theorem getD_set_ne (l : List Nat) (n m v : Nat) (h : n ≠ m) :
    (l.set n v).getD m 0 = l.getD m 0 := by
  rw [List.getD_eq_getElem?_getD, List.getD_eq_getElem?_getD, List.getElem?_set, if_neg h]

theorem sum_take_le (s : List Nat) (j : Nat) : (s.take j).sum ≤ s.sum := by
  conv_rhs => rw [← List.sum_take_add_sum_drop s j]
  exact Nat.le_add_right _ _

theorem sum_take_mono (s : List Nat) {a b : Nat} (h : a ≤ b) :
    (s.take a).sum ≤ (s.take b).sum := by
  obtain ⟨k, rfl⟩ := Nat.exists_eq_add_of_le h
  rw [List.take_add, List.sum_append]
  exact Nat.le_add_right _ _

theorem sum_take_succ (s : List Nat) (j : Nat) (hj : j < s.length) :
    (s.take (j + 1)).sum = (s.take j).sum + s.getD j 0 := by
  rw [List.take_add, List.sum_append, List.drop_eq_getElem_cons hj, List.take_succ_cons,
    List.take_zero]
  simp [List.getD_eq_getElem?_getD, List.getElem?_eq_getElem hj]

theorem flatten_getD_segment (L : List (List Nat)) (j t : Nat) (hj : j < L.length)
    (ht : t < (L.getD j []).length) :
    L.flatten.getD ((((L.map List.length).take j).sum) + t) 0 = (L.getD j []).getD t 0 := by
  induction L generalizing j with
  | nil => simp at hj
  | cons x L ih =>
    cases j with
    | zero =>
      rw [List.flatten_cons]
      simp only [List.take_zero, List.sum_nil, Nat.zero_add]
      simp only [List.getD_cons_zero] at ht ⊢
      exact getD_append_lt _ _ _ _ ht
    | succ j =>
      rw [List.flatten_cons, List.map_cons, List.take_succ_cons, List.sum_cons, Nat.add_assoc,
        getD_append_add]
      simp only [List.getD_cons_succ] at ht ⊢
      exact ih j (by simpa using hj) ht

theorem flatten_slice_segment (L : List (List Nat)) (j : Nat) (hj : j < L.length) :
    ((L.flatten.drop (((L.map List.length).take j).sum)).take ((L.getD j []).length)) =
      L.getD j [] := by
  induction L generalizing j with
  | nil => simp at hj
  | cons x L ih =>
    cases j with
    | zero =>
      rw [List.flatten_cons]
      simp only [List.take_zero, List.sum_nil, List.drop_zero, List.getD_cons_zero]
      rw [List.take_append_of_le_length (le_refl _), List.take_length]
    | succ j =>
      rw [List.flatten_cons, List.map_cons, List.take_succ_cons, List.sum_cons,
        ← List.drop_drop, List.drop_left]
      simp only [List.getD_cons_succ]
      exact ih j (by simpa using hj)

/-! Structural lemmas about the colormap registry storage. -/

namespace ImPlot3DColormapData

theorem length_tableFor (keys : List Nat) (q : Bool) :
    (tableFor keys q).length = tableSizeFor keys q := by
  unfold tableFor tableSizeFor
  cases q
  · simp only [Bool.false_eq_true, if_false]
    rw [List.length_append, List.length_flatMap]
    have hmap : List.map
        (List.length ∘ fun i => (List.range 255).map
          (fun s => ImMixU32 (keys.getD i 0) (keys.getD (i + 1) 0) s))
        (List.range (keys.length - 1)) =
        List.map (fun i => 255) (List.range (keys.length - 1)) :=
      List.map_congr_left (fun i _ => by simp)
    rw [hmap, List.map_const', List.sum_replicate, smul_eq_mul, List.length_singleton,
      List.length_range]
    omega
  · simp

theorem offsetsOf_length (s : List Nat) : (offsetsOf s).length = s.length := by
  unfold offsetsOf
  simp

theorem offsetsOf_getD (s : List Nat) (j : Nat) (hj : j < s.length) :
    (offsetsOf s).getD j 0 = (s.take j).sum := by
  unfold offsetsOf
  rw [List.getD_eq_getElem?_getD, List.getElem?_map, List.getElem?_range hj]
  rfl

theorem offsetsOf_concat (s : List Nat) (x : Nat) :
    offsetsOf (s ++ [x]) = offsetsOf s ++ [s.sum] := by
  unfold offsetsOf
  rw [List.length_append, List.length_singleton, List.range_succ, List.map_append]
  congr 1
  · apply List.map_congr_left
    intro i hi
    rw [List.take_append_of_le_length (le_of_lt (List.mem_range.mp hi))]
  · simp [List.take_left]

theorem rebuild_aux (d : ImPlot3DColormapData) (m : Nat) :
    (List.range m).foldl (fun acc i => _AppendTable acc i)
      { d with Tables := [], TableSizes := [], TableOffsets := [] } =
    { d with
      Tables := (List.range m).flatMap (fun i => tableFor (GetKeys d i) (IsQual d i)),
      TableSizes := (List.range m).map (fun i => tableSizeFor (GetKeys d i) (IsQual d i)),
      TableOffsets :=
        offsetsOf ((List.range m).map fun i => tableSizeFor (GetKeys d i) (IsQual d i)) } := by
  induction m with
  | zero => simp [offsetsOf]
  | succ m ih =>
    rw [List.range_succ, List.foldl_append, ih]
    simp only [List.foldl_cons, List.foldl_nil]
    have hlen : ((List.range m).flatMap (fun i => tableFor (GetKeys d i) (IsQual d i))).length
        = ((List.range m).map (fun i => tableSizeFor (GetKeys d i) (IsQual d i))).sum := by
      rw [List.length_flatMap]
      congr 1
      apply List.map_congr_left
      intro i _
      exact length_tableFor _ _
    simp only [List.flatMap_append, List.map_append, List.flatMap_cons, List.flatMap_nil,
      List.append_nil, List.map_cons, List.map_nil]
    rw [offsetsOf_concat]
    unfold _AppendTable
    simp only [GetKeys, IsQual] at hlen ⊢
    rw [hlen]

theorem RebuildTables_eq (d : ImPlot3DColormapData) :
    RebuildTables d = { d with
      Tables := canonTables d,
      TableSizes := canonSizes d,
      TableOffsets := offsetsOf (canonSizes d) } := by
  unfold RebuildTables canonTables canonSizes
  exact rebuild_aux d d.Count

theorem canonSizes_length (d : ImPlot3DColormapData) : (canonSizes d).length = d.Count := by
  unfold canonSizes
  simp

theorem canonSizes_getD (d : ImPlot3DColormapData) (j : Nat) (hj : j < d.Count) :
    (canonSizes d).getD j 0 = tableSizeFor (GetKeys d j) (IsQual d j) := by
  unfold canonSizes
  rw [List.getD_eq_getElem?_getD, List.getElem?_map, List.getElem?_range hj]
  rfl

theorem consistent_getTableSize (d : ImPlot3DColormapData) (hc : Consistent d)
    (j : Nat) (hj : j < d.Count) :
    GetTableSize d j = tableSizeFor (GetKeys d j) (IsQual d j) := by
  obtain ⟨-, -, hsiz, -⟩ := hc
  rw [GetTableSize, hsiz, canonSizes_getD d j hj]

theorem consistent_getTableColor (d : ImPlot3DColormapData) (hc : Consistent d)
    (j t : Nat) (hj : j < d.Count) (ht : t < GetTableSize d j) :
    GetTableColor d j t = (tableFor (GetKeys d j) (IsQual d j)).getD t 0 := by
  have hsz := consistent_getTableSize d hc j hj
  obtain ⟨-, hoff, hsiz, htab⟩ := hc
  have hLget : ((List.range d.Count).map
      (fun i => tableFor (GetKeys d i) (IsQual d i))).getD j [] =
      tableFor (GetKeys d j) (IsQual d j) := by
    rw [List.getD_eq_getElem?_getD, List.getElem?_map, List.getElem?_range hj]
    rfl
  have hmapLen : ((List.range d.Count).map
      (fun i => tableFor (GetKeys d i) (IsQual d i))).map List.length = canonSizes d := by
    unfold canonSizes
    rw [List.map_map]
    exact List.map_congr_left (fun i _ => by simp [Function.comp, length_tableFor])
  have hflat : d.Tables = ((List.range d.Count).map
      (fun i => tableFor (GetKeys d i) (IsQual d i))).flatten := by
    rw [htab]
    unfold canonTables
    rw [List.flatMap_def]
  have hjL : j < ((List.range d.Count).map
      (fun i => tableFor (GetKeys d i) (IsQual d i))).length := by simpa using hj
  have htL : t < (((List.range d.Count).map
      (fun i => tableFor (GetKeys d i) (IsQual d i))).getD j []).length := by
    rw [hLget, length_tableFor, ← hsz]
    exact ht
  have hoffj : d.TableOffsets.getD j 0 = ((((List.range d.Count).map
      (fun i => tableFor (GetKeys d i) (IsQual d i))).map List.length).take j).sum := by
    rw [hoff, offsetsOf_getD _ j (by rw [canonSizes_length]; exact hj), hmapLen]
  unfold GetTableColor
  rw [hoffj, hflat, flatten_getD_segment _ j t hjL htL, hLget]

theorem consistent_getTable (d : ImPlot3DColormapData) (hc : Consistent d)
    (j : Nat) (hj : j < d.Count) :
    GetTable d j = tableFor (GetKeys d j) (IsQual d j) := by
  have hsz := consistent_getTableSize d hc j hj
  obtain ⟨-, hoff, hsiz, htab⟩ := hc
  have hLget : ((List.range d.Count).map
      (fun i => tableFor (GetKeys d i) (IsQual d i))).getD j [] =
      tableFor (GetKeys d j) (IsQual d j) := by
    rw [List.getD_eq_getElem?_getD, List.getElem?_map, List.getElem?_range hj]
    rfl
  have hmapLen : ((List.range d.Count).map
      (fun i => tableFor (GetKeys d i) (IsQual d i))).map List.length = canonSizes d := by
    unfold canonSizes
    rw [List.map_map]
    exact List.map_congr_left (fun i _ => by simp [Function.comp, length_tableFor])
  have hflat : d.Tables = ((List.range d.Count).map
      (fun i => tableFor (GetKeys d i) (IsQual d i))).flatten := by
    rw [htab]
    unfold canonTables
    rw [List.flatMap_def]
  have hjL : j < ((List.range d.Count).map
      (fun i => tableFor (GetKeys d i) (IsQual d i))).length := by simpa using hj
  have hoffj : d.TableOffsets.getD j 0 = ((((List.range d.Count).map
      (fun i => tableFor (GetKeys d i) (IsQual d i))).map List.length).take j).sum := by
    rw [hoff, offsetsOf_getD _ j (by rw [canonSizes_length]; exact hj), hmapLen]
  have hszslice : d.TableSizes.getD j 0 = (((List.range d.Count).map
      (fun i => tableFor (GetKeys d i) (IsQual d i))).getD j []).length := by
    rw [hLget, length_tableFor]
    exact hsz
  unfold GetTable
  rw [hoffj, hflat, hszslice, flatten_slice_segment _ j hjL, hLget]

end ImPlot3DColormapData

theorem getD_concat_eq {α : Type} (l : List α) (a d : α) (n : Nat) (h : n = l.length) :
    (l ++ [a]).getD n d = a := by
  subst h
  exact getD_concat_self l a d

theorem takeWhile_append_break {α : Type} (p : α → Bool) (l l' : List α) (a : α)
    (hl : ∀ x ∈ l, p x = true) (ha : p a = false) :
    (l ++ a :: l').takeWhile p = l := by
  induction l with
  | nil => simp [List.takeWhile_cons_of_neg, ha]
  | cons x xs ih =>
    rw [List.cons_append, List.takeWhile_cons_of_pos (hl x (by simp))]
    rw [ih (fun y hy => hl y (by simp [hy]))]

namespace ImPlot3DColormapData

theorem Append_success (hash : String → Nat) (d : ImPlot3DColormapData) (name : String)
    (keys : List Nat) (count : Nat) (qual : Bool)
    (h : GetIndex hash d name = -1) (hw : WFlen d) :
    Append hash d name keys count qual =
      (appendState hash d name keys count qual, (d.Count : Int)) := by
  obtain ⟨hko, hkc, hq, hto, hts, htx⟩ := hw
  unfold Append
  rw [if_neg (by rw [h]; simp)]
  unfold _AppendTable GetKeys IsQual appendState
  simp only []
  rw [getD_concat_eq _ _ _ _ hko.symm, getD_concat_eq _ _ _ _ hkc.symm,
    getD_concat_eq _ _ _ _ hq.symm, List.drop_left, List.take_take]
  simp

theorem appendState_GetTableSize (hash : String → Nat) (d : ImPlot3DColormapData)
    (name : String) (keys : List Nat) (count : Nat) (qual : Bool)
    (hts : d.TableSizes.length = d.Count) :
    GetTableSize (appendState hash d name keys count qual) d.Count =
      tableSizeFor (keys.take count) qual := by
  unfold GetTableSize appendState
  exact getD_concat_eq _ _ _ _ hts.symm

theorem appendState_GetTableColor (hash : String → Nat) (d : ImPlot3DColormapData)
    (name : String) (keys : List Nat) (count : Nat) (qual : Bool)
    (hto : d.TableOffsets.length = d.Count) (j : Nat) :
    GetTableColor (appendState hash d name keys count qual) d.Count j =
      (tableFor (keys.take count) qual).getD j 0 := by
  unfold GetTableColor appendState
  simp only []
  rw [getD_concat_eq _ _ _ _ hto.symm, getD_append_add]

theorem appendState_GetTable (hash : String → Nat) (d : ImPlot3DColormapData)
    (name : String) (keys : List Nat) (count : Nat) (qual : Bool)
    (hto : d.TableOffsets.length = d.Count) (hts : d.TableSizes.length = d.Count) :
    GetTable (appendState hash d name keys count qual) d.Count =
      tableFor (keys.take count) qual := by
  unfold GetTable appendState
  simp only []
  rw [getD_concat_eq _ _ _ _ hto.symm, getD_concat_eq _ _ _ _ hts.symm, List.drop_left,
    ← length_tableFor, List.take_length]

theorem appendState_GetIndex (hash : String → Nat) (d : ImPlot3DColormapData)
    (name : String) (keys : List Nat) (count : Nat) (qual : Bool) :
    GetIndex hash (appendState hash d name keys count qual) name = (d.Count : Int) := by
  unfold GetIndex appendState
  simp [List.lookup_cons]

theorem appendState_GetName (hash : String → Nat) (d : ImPlot3DColormapData)
    (name : String) (keys : List Nat) (count : Nat) (qual : Bool)
    (htx : d.TextOffsets.length = d.Count) (hname : Char.ofNat 0 ∉ name.data) :
    GetName (appendState hash d name keys count qual) d.Count = some name.data := by
  unfold GetName appendState
  rw [if_pos (by simp)]
  simp only []
  rw [getD_concat_eq _ _ _ _ htx.symm, List.append_assoc, List.drop_left]
  congr 1
  exact takeWhile_append_break _ _ _ _
    (fun x hx => by
      simp only [decide_eq_true_eq]
      intro hx0
      exact hname (hx0 ▸ hx))
    (by simp)

theorem Append_dup (hash : String → Nat) (d : ImPlot3DColormapData) (name : String)
    (keys : List Nat) (count : Nat) (qual : Bool)
    (h : GetIndex hash d name ≠ -1) :
    Append hash d name keys count qual = (d, -1) := by
  unfold Append
  rw [if_pos h]

end ImPlot3DColormapData

/-! Arithmetic facts about the blend primitive. -/

/-- Mixing with factor `s = 0` returns the first color unchanged: the blend
weights become `af = 256`, `bf = 0`, and the byte-shuffle reassembles `a`. -/
theorem ImMixU32_zero (a b : Nat) (ha : a < U32) : ImMixU32 a b 0 = a := by
  have hal : a &&& 0x00ff00ff ≤ 0x00ff00ff := Nat.and_le_right
  have hah : (a &&& 0xff00ff00) >>> 8 ≤ 0xff00ff00 >>> 8 := by
    simp only [Nat.shiftRight_eq_div_pow]
    exact Nat.div_le_div_right Nat.and_le_right
  simp only [ImMixU32, Nat.sub_zero, Nat.mul_zero, Nat.add_zero]
  rw [Nat.mod_eq_of_lt (by unfold U32; omega), Nat.mod_eq_of_lt (by unfold U32; omega)]
  have h256 : (256 : Nat) = 2 ^ 8 := by norm_num
  rw [h256, ← Nat.shiftLeft_eq, ← Nat.shiftLeft_eq]
  apply Nat.eq_of_testBit_eq
  intro i
  by_cases hi : i < 32
  · interval_cases i <;>
      simp only [Nat.testBit_lor, Nat.testBit_land, Nat.testBit_shiftLeft,
        Nat.testBit_shiftRight] <;>
      simp [Nat.testBit_to_div_mod]
  · have h1 : a.testBit i = false := by
      apply Nat.testBit_lt_two_pow
      calc a < U32 := ha
        _ ≤ 2 ^ i := by
            unfold U32
            rw [show (4294967296 : Nat) = 2 ^ 32 by norm_num]
            exact Nat.pow_le_pow_right (by norm_num) (by omega)
    have hb : ∀ (x j : Nat), 32 ≤ j → x ≤ 0xff00ff00 → x.testBit j = false := by
      intro x j hj hx
      apply Nat.testBit_lt_two_pow
      calc x ≤ 0xff00ff00 := hx
        _ < 2 ^ 32 := by norm_num
        _ ≤ 2 ^ j := Nat.pow_le_pow_right (by norm_num) hj
    rw [Nat.testBit_lor, Nat.testBit_shiftRight,
      hb _ _ (by omega) Nat.and_le_right, hb _ _ (by omega) Nat.and_le_right, h1]
    rfl

theorem getD_mem_of_lt {α : Type} (l : List α) (n : Nat) (d : α) (h : n < l.length) :
    l.getD n d ∈ l := by
  rw [List.getD_eq_getElem _ _ h]
  exact List.getElem_mem h

theorem getLastD_eq_getD (l : List Nat) : l.getLastD 0 = l.getD (l.length - 1) 0 := by
  rw [List.getLastD_eq_getLast?, List.getLast?_eq_getElem?, List.getD_eq_getElem?_getD]

namespace ImPlot3DColormapData

theorem length_mixPart (keys : List Nat) :
    ((List.range (keys.length - 1)).flatMap (fun i =>
      (List.range 255).map (fun s => ImMixU32 (keys.getD i 0) (keys.getD (i + 1) 0) s))).length
    = 255 * (keys.length - 1) := by
  rw [List.length_flatMap]
  have hmap : List.map
      (List.length ∘ fun i => (List.range 255).map
        (fun s => ImMixU32 (keys.getD i 0) (keys.getD (i + 1) 0) s))
      (List.range (keys.length - 1)) =
      List.map (fun i => 255) (List.range (keys.length - 1)) :=
    List.map_congr_left (fun i _ => by simp)
  rw [hmap, List.map_const', List.sum_replicate, smul_eq_mul, List.length_range]
  omega

/-- The first entry of a continuous table is the first key verbatim (it is
`ImMixU32(keys[0], keys[1], 0)`, and mixing by factor 0 is the identity on the
first argument). -/
theorem tableFor_cont_head (keys : List Nat) (h2 : 2 ≤ keys.length)
    (h0 : keys.getD 0 0 < U32) :
    (tableFor keys false).getD 0 0 = keys.getD 0 0 := by
  unfold tableFor
  simp only [Bool.false_eq_true, if_false]
  obtain ⟨m, hm⟩ : ∃ m, keys.length - 1 = m + 1 := ⟨keys.length - 2, by omega⟩
  rw [hm, List.range_succ_eq_map, List.flatMap_cons]
  rw [List.append_assoc]
  rw [getD_append_lt _ _ _ _ (by simp)]
  rw [show List.range 255 = 0 :: List.map Nat.succ (List.range 254) from
    List.range_succ_eq_map 254]
  simp only [List.map_cons, List.getD_cons_zero]
  exact ImMixU32_zero _ _ h0

/-- The last entry of a continuous table is the last key verbatim. -/
theorem tableFor_cont_last (keys : List Nat) :
    (tableFor keys false).getD (255 * (keys.length - 1)) 0 =
      keys.getD (keys.length - 1) 0 := by
  unfold tableFor
  simp only [Bool.false_eq_true, if_false]
  have hlen := length_mixPart keys
  have h := getD_append_add
    ((List.range (keys.length - 1)).flatMap (fun i =>
      (List.range 255).map (fun s => ImMixU32 (keys.getD i 0) (keys.getD (i + 1) 0) s)))
    [keys.getLastD 0] 0 0
  rw [hlen] at h
  rw [Nat.add_zero] at h
  rw [h, List.getD_cons_zero, getLastD_eq_getD]

theorem tableFor_qual (keys : List Nat) : tableFor keys true = keys := by
  unfold tableFor
  simp

theorem tableSizeFor_pos (keys : List Nat) (q : Bool) (h : 1 ≤ keys.length) :
    1 ≤ tableSizeFor keys q := by
  unfold tableSizeFor
  cases q
  · simp only [Bool.false_eq_true, if_false]
    omega
  · simp only [if_true]
    exact h

theorem segWF_getKeys_length (d : ImPlot3DColormapData) (hs : SegWF d)
    (j : Nat) (hj : j < d.Count) :
    (GetKeys d j).length = GetKeyCount d j := by
  obtain ⟨⟨hko, hkc, -, -, -, -⟩, hoffEq, hKlen⟩ := hs
  unfold GetKeys GetKeyCount
  rw [List.length_take, List.length_drop]
  have hoffj : d.KeyOffsets.getD j 0 = (d.KeyCounts.take j).sum := by
    rw [hoffEq, offsetsOf_getD _ j (by rw [hkc]; exact hj)]
  have hsum : (d.KeyCounts.take j).sum + d.KeyCounts.getD j 0 ≤ d.KeyCounts.sum := by
    rw [← sum_take_succ _ j (by rw [hkc]; exact hj)]
    exact sum_take_le _ _
  omega

theorem segWF_keySeg_bound (d : ImPlot3DColormapData) (hs : SegWF d)
    (j : Nat) (hj : j < d.Count) :
    d.KeyOffsets.getD j 0 + GetKeyCount d j ≤ d.Keys.length := by
  obtain ⟨⟨hko, hkc, -, -, -, -⟩, hoffEq, hKlen⟩ := hs
  unfold GetKeyCount
  have hoffj : d.KeyOffsets.getD j 0 = (d.KeyCounts.take j).sum := by
    rw [hoffEq, offsetsOf_getD _ j (by rw [hkc]; exact hj)]
  have hsum : (d.KeyCounts.take j).sum + d.KeyCounts.getD j 0 ≤ d.KeyCounts.sum := by
    rw [← sum_take_succ _ j (by rw [hkc]; exact hj)]
    exact sum_take_le _ _
  omega

theorem getKeyColor_eq_getKeys_getD (d : ImPlot3DColormapData) (j i : Nat)
    (hi : i < GetKeyCount d j) :
    GetKeyColor d j i = (GetKeys d j).getD i 0 := by
  unfold GetKeyColor GetKeys GetKeyCount at *
  rw [getD_slice _ _ _ _ hi]

theorem cCastInt_nonneg (q : ℚ) (h : 0 ≤ q) : cCastInt q = ⌊q⌋ := by
  unfold cCastInt
  rw [if_neg (not_lt.mpr h)]

theorem lerpIdx_zero (qual : Bool) (siz : Nat) (hs : 1 ≤ siz) : lerpIdx qual siz 0 = 0 := by
  unfold lerpIdx ImClamp
  cases qual
  · simp only [Bool.false_eq_true, if_false]
    rw [cCastInt_nonneg _ (by norm_num), mul_zero, zero_add]
    norm_num [Int.floor_eq_zero_iff]
  · simp only [if_true]
    rw [mul_zero, cCastInt_nonneg _ le_rfl]
    simp only [Int.floor_zero]
    have : ¬ ((0 : Int) < 0) := by omega
    rw [if_neg this, if_neg (by omega)]

theorem lerpIdx_one (qual : Bool) (siz : Nat) (hs : 1 ≤ siz) :
    lerpIdx qual siz 1 = (siz : Int) - 1 := by
  unfold lerpIdx ImClamp
  cases qual
  · simp only [Bool.false_eq_true, if_false]
    have h1s : (1 : ℚ) ≤ (siz : ℚ) := by exact_mod_cast hs
    rw [cCastInt_nonneg _ (by linarith), mul_one]
    have hcast : ((siz : ℚ) - 1) + 1 / 2 = 1 / 2 + (((siz : Int) - 1 : Int) : ℚ) := by
      push_cast
      ring
    rw [hcast, Int.floor_add_int]
    norm_num
  · simp only [if_true]
    rw [mul_one, cCastInt_nonneg _ (by positivity)]
    rw [show ((siz : ℚ)) = (((siz : Int) : Int) : ℚ) by push_cast; ring, Int.floor_intCast]
    rw [if_neg (by omega), if_pos (by omega)]

theorem lerpIdx_bounds (qual : Bool) (siz : Nat) (t : ℚ) (hs : 1 ≤ siz)
    (h0 : 0 ≤ t) (h1 : t ≤ 1) :
    0 ≤ lerpIdx qual siz t ∧ lerpIdx qual siz t ≤ (siz : Int) - 1 := by
  cases qual
  · unfold lerpIdx
    simp only [Bool.false_eq_true, if_false]
    have h1s : (1 : ℚ) ≤ (siz : ℚ) := by exact_mod_cast hs
    have harg : (0 : ℚ) ≤ ((siz : ℚ) - 1) * t + 1 / 2 := by
      have := mul_nonneg (by linarith : (0:ℚ) ≤ (siz : ℚ) - 1) h0
      linarith
    rw [cCastInt_nonneg _ harg]
    constructor
    · exact Int.floor_nonneg.mpr harg
    · have hlt : ((siz : ℚ) - 1) * t + 1 / 2 < ((siz : Int) : ℚ) := by
        have := mul_le_of_le_one_right (by linarith : (0:ℚ) ≤ (siz : ℚ) - 1) h1
        push_cast
        linarith
      have := Int.floor_lt.mpr hlt
      omega
  · unfold lerpIdx ImClamp
    simp only [if_true]
    split_ifs <;> omega

theorem LerpTable_eq_getTableColor (d : ImPlot3DColormapData) (cmap : Nat) (t : ℚ)
    (h : 0 ≤ lerpIdx (IsQual d cmap) (GetTableSize d cmap) t) :
    LerpTable d cmap t =
      GetTableColor d cmap (lerpIdx (IsQual d cmap) (GetTableSize d cmap) t).toNat := by
  show d.Tables.getD
      (((d.TableOffsets.getD cmap 0 : Nat) : Int) +
        lerpIdx (IsQual d cmap) (GetTableSize d cmap) t).toNat 0 =
    d.Tables.getD
      (d.TableOffsets.getD cmap 0 +
        (lerpIdx (IsQual d cmap) (GetTableSize d cmap) t).toNat) 0
  congr 1
  omega

end ImPlot3DColormapData

namespace ImPlot3DColormapData

theorem tableSizeFor_congr (k1 k2 : List Nat) (q : Bool) (h : k1.length = k2.length) :
    tableSizeFor k1 q = tableSizeFor k2 q := by
  unfold tableSizeFor
  rw [h]

theorem canonSizes_congr (d1 d2 : ImPlot3DColormapData)
    (hcount : d1.Count = d2.Count)
    (hk : ∀ i, i < d1.Count → (GetKeys d1 i).length = (GetKeys d2 i).length)
    (hq : ∀ i, i < d1.Count → IsQual d1 i = IsQual d2 i) :
    canonSizes d1 = canonSizes d2 := by
  unfold canonSizes
  rw [← hcount]
  apply List.map_congr_left
  intro i hi
  rw [tableSizeFor_congr _ _ _ (hk i (List.mem_range.mp hi)), hq i (List.mem_range.mp hi)]

theorem canonTables_length (d : ImPlot3DColormapData) :
    (canonTables d).length = (canonSizes d).sum := by
  unfold canonTables canonSizes
  rw [List.length_flatMap]
  congr 1
  apply List.map_congr_left
  intro i _
  simp [Function.comp, length_tableFor]

theorem ImClamp_eq_max_min (v mn mx : Int) (h : mn ≤ mx) :
    ImClamp v mn mx = max mn (min v mx) := by
  unfold ImClamp
  split_ifs <;> omega

end ImPlot3DColormapData

namespace ImPlot3DTicker

/-- Each `AddTick` entry point appends exactly one tick, stamped with the
pre-call tick count as its `Idx`. -/
theorem step_Ticks_spec (tk : ImPlot3DTicker) (c : TickCall) :
    ∃ t, (step tk c).Ticks = tk.Ticks ++ [t] ∧ t.Idx = tk.Ticks.length := by
  cases c with
  | core tick => exact ⟨_, rfl, rfl⟩
  | labeled v m s l =>
    cases l with
    | none => cases s <;> exact ⟨_, rfl, rfl⟩
    | some lab => cases s <;> exact ⟨_, rfl, rfl⟩
  | formatted v m s f =>
    cases f with
    | none => cases s <;> exact ⟨_, rfl, rfl⟩
    | some fmt => cases s <;> exact ⟨_, rfl, rfl⟩

theorem runCalls_preserve (calls : List TickCall) (tk : ImPlot3DTicker)
    (h : ∀ i, i < tk.Ticks.length → (tk.Ticks.getD i (mkTick 0 false false)).Idx = i) :
    ∀ i, i < (runCalls tk calls).Ticks.length →
      ((runCalls tk calls).Ticks.getD i (mkTick 0 false false)).Idx = i := by
  induction calls generalizing tk with
  | nil => exact h
  | cons c cs ih =>
    show ∀ i, i < (runCalls (step tk c) cs).Ticks.length → _
    apply ih
    obtain ⟨t, hts, hidx⟩ := step_Ticks_spec tk c
    intro i hi
    rw [hts] at hi ⊢
    rw [List.length_append, List.length_singleton] at hi
    by_cases hlt : i < tk.Ticks.length
    · rw [getD_append_lt _ _ _ _ hlt]
      exact h i hlt
    · have hieq : i = tk.Ticks.length := by omega
      subst hieq
      rw [getD_concat_self]
      exact hidx

end ImPlot3DTicker

/-! Claim theorems. -/

open ImPlot3DColormapData in
/-- C4: calling `Append` with a name that is already registered (its hash is
mapped, so `GetIndex` is not `-1`) returns the NotFound sentinel `-1` and
leaves the colormap registry completely unmutated: the returned state is the
input state, so the count, keys, tables and name map are all unchanged. -/
theorem claim_C4 (hash : String → Nat) (d : ImPlot3DColormapData) (name : String)
    (keys : List Nat) (count : Nat) (qual : Bool)
    (h : GetIndex hash d name ≠ -1) :
    Append hash d name keys count qual = (d, -1) :=
  Append_dup hash d name keys count qual h

open ImPlot3DColormapData in
/-- Witness for C4 at a concrete registry in which the name `X` is
registered. -/
theorem claim_C4_witness :
    GetIndex (fun _ => 7) (⟨[], [], [], [], [], [], [], [], [], [(7, 0)], 1⟩ :
      ImPlot3DColormapData) "X" ≠ -1 ∧
    Append (fun _ => 7) (⟨[], [], [], [], [], [], [], [], [], [(7, 0)], 1⟩ :
      ImPlot3DColormapData) "X" [1, 2] 2 false =
      ((⟨[], [], [], [], [], [], [], [], [], [(7, 0)], 1⟩ : ImPlot3DColormapData), -1) :=
  ⟨by decide, claim_C4 (fun _ => 7) _ "X" [1, 2] 2 false (by decide)⟩

open ImPlot3DColormapData in
/-- C5: appending a qualitative colormap with `k` keys produces a dense table
with exactly `k` entries that equals the key sequence elementwise. -/
theorem claim_C5 (hash : String → Nat) (d : ImPlot3DColormapData) (name : String)
    (keys : List Nat) (hw : WFlen d) (hfree : GetIndex hash d name = -1) :
    GetTableSize (Append hash d name keys keys.length true).1 d.Count = keys.length ∧
    GetTable (Append hash d name keys keys.length true).1 d.Count = keys := by
  rw [Append_success hash d name keys keys.length true hfree hw]
  obtain ⟨hko, hkc, hq, hto, hts, htx⟩ := hw
  dsimp only
  constructor
  · rw [appendState_GetTableSize hash d name keys keys.length true hts, List.take_length]
    unfold tableSizeFor
    simp
  · rw [appendState_GetTable hash d name keys keys.length true hto hts, List.take_length,
      tableFor_qual]

open ImPlot3DColormapData in
/-- Witness for C5: a three-key qualitative colormap appended to the empty
registry. -/
theorem claim_C5_witness :
    WFlen ImPlot3DColormapData.empty ∧
    GetIndex (fun s => s.length) ImPlot3DColormapData.empty "A" = -1 ∧
    (GetTableSize (Append (fun s => s.length) ImPlot3DColormapData.empty "A"
        [10, 20, 30] 3 true).1 0 = 3 ∧
      GetTable (Append (fun s => s.length) ImPlot3DColormapData.empty "A"
        [10, 20, 30] 3 true).1 0 = [10, 20, 30]) :=
  ⟨by decide, by decide,
    claim_C5 (fun s => s.length) ImPlot3DColormapData.empty "A" [10, 20, 30]
      (by decide) (by decide)⟩

/-- C7 (spec-modelled: `ApplyFit`/`ExtendFit` are defined in `implot3d.cpp`,
which is not among the sources): `ApplyFit` replaces the axis range with the
fit accumulator exactly when the accumulator is non-degenerate and otherwise
leaves the range unchanged; in both cases it re-seeds the accumulator to
`[+∞, -∞]`, so a second `ApplyFit` with no `ExtendFit` in between retains the
range. -/
theorem claim_C7 (ax : ImPlot3DAxis) :
    (ImPlot3DAxis.ApplyFit ax).Range =
      (if ImPlot3DAxis.FitValid ax.FitExtents then ax.FitExtents else ax.Range) ∧
    (ImPlot3DAxis.ApplyFit ax).FitExtents = ImPlot3DAxis.fitSeed ∧
    (ImPlot3DAxis.ApplyFit (ImPlot3DAxis.ApplyFit ax)).Range =
      (ImPlot3DAxis.ApplyFit ax).Range := by
  refine ⟨rfl, rfl, ?_⟩
  rw [show (ImPlot3DAxis.ApplyFit (ImPlot3DAxis.ApplyFit ax)).Range =
      (if ImPlot3DAxis.FitValid (ImPlot3DAxis.ApplyFit ax).FitExtents
        then (ImPlot3DAxis.ApplyFit ax).FitExtents
        else (ImPlot3DAxis.ApplyFit ax).Range) from rfl]
  rw [show (ImPlot3DAxis.ApplyFit ax).FitExtents = ImPlot3DAxis.fitSeed from rfl]
  rw [if_neg (by decide)]

open ImPlot3DTicker in
/-- C8: starting from a `Reset` ticker, the `i`-th tick added by any sequence
of `AddTick` calls carries `Idx = i`, and every `AddTick` call appends (the
pre-call tick list is a prefix of the post-call tick list). -/
theorem claim_C8 (calls : List TickCall) :
    (∀ i, i < (runCalls reset calls).Ticks.length →
      ((runCalls reset calls).Ticks.getD i (mkTick 0 false false)).Idx = i) ∧
    (∀ (tk : ImPlot3DTicker) (c : TickCall),
      (step tk c).Ticks.take tk.Ticks.length = tk.Ticks) := by
  constructor
  · apply runCalls_preserve
    intro i hi
    simp [reset] at hi
  · intro tk c
    obtain ⟨t, hts, -⟩ := step_Ticks_spec tk c
    rw [hts, List.take_left]

open ImPlot3DTicker in
/-- Witness for C8 on a concrete three-call sequence mixing the three
`AddTick` overloads. -/
theorem claim_C8_witness :
    (1 < (runCalls reset
        [TickCall.core (mkTick 5 true false),
         TickCall.labeled 1 false true (some "a"),
         TickCall.formatted 2 true true none]).Ticks.length ∧
      ((runCalls reset
        [TickCall.core (mkTick 5 true false),
         TickCall.labeled 1 false true (some "a"),
         TickCall.formatted 2 true true none]).Ticks.getD 1
          (mkTick 0 false false)).Idx = 1) ∧
    (step ⟨[], []⟩ (TickCall.core (mkTick 3 true true))).Ticks.take
      (⟨[], []⟩ : ImPlot3DTicker).Ticks.length = (⟨[], []⟩ : ImPlot3DTicker).Ticks :=
  ⟨⟨by decide,
    (claim_C8 [TickCall.core (mkTick 5 true false),
      TickCall.labeled 1 false true (some "a"),
      TickCall.formatted 2 true true none]).1 1 (by decide)⟩,
    (claim_C8 []).2 ⟨[], []⟩ (TickCall.core (mkTick 3 true true))⟩

open ImPlot3DColormapData in
/-- C1: appending a continuous (`qualitative = false`) colormap with `k ≥ 2`
keys produces a dense table with exactly `255*(k-1)+1` entries whose first
entry equals the first key and whose last entry equals the last key. -/
theorem claim_C1 (hash : String → Nat) (d : ImPlot3DColormapData) (name : String)
    (keys : List Nat) (hw : WFlen d) (hfree : GetIndex hash d name = -1)
    (h2 : 2 ≤ keys.length) (hkeys : ∀ k ∈ keys, k < U32) :
    GetTableSize (Append hash d name keys keys.length false).1 d.Count =
      255 * (keys.length - 1) + 1 ∧
    (GetTable (Append hash d name keys keys.length false).1 d.Count).length =
      255 * (keys.length - 1) + 1 ∧
    GetTableColor (Append hash d name keys keys.length false).1 d.Count 0 =
      keys.getD 0 0 ∧
    GetTableColor (Append hash d name keys keys.length false).1 d.Count
      (255 * (keys.length - 1)) = keys.getD (keys.length - 1) 0 := by
  rw [Append_success hash d name keys keys.length false hfree hw]
  obtain ⟨hko, hkc, hq, hto, hts, htx⟩ := hw
  dsimp only
  refine ⟨?_, ?_, ?_, ?_⟩
  · rw [appendState_GetTableSize hash d name keys keys.length false hts, List.take_length]
    unfold tableSizeFor
    simp
  · rw [appendState_GetTable hash d name keys keys.length false hto hts, List.take_length,
      length_tableFor]
    unfold tableSizeFor
    simp
  · rw [appendState_GetTableColor hash d name keys keys.length false hto 0, List.take_length]
    exact tableFor_cont_head keys h2 (hkeys _ (getD_mem_of_lt keys 0 0 (by omega)))
  · rw [appendState_GetTableColor hash d name keys keys.length false hto
      (255 * (keys.length - 1)), List.take_length]
    exact tableFor_cont_last keys

open ImPlot3DColormapData in
/-- Witness for C1: the two-key continuous red/blue colormap appended to the
empty registry. -/
theorem claim_C1_witness :
    (WFlen ImPlot3DColormapData.empty ∧
      GetIndex (fun s => s.length) ImPlot3DColormapData.empty "RB" = -1 ∧
      2 ≤ ([0xFF0000FF, 0x0000FFFF] : List Nat).length ∧
      ∀ k ∈ ([0xFF0000FF, 0x0000FFFF] : List Nat), k < U32) ∧
    (GetTableSize (Append (fun s => s.length) ImPlot3DColormapData.empty "RB"
        [0xFF0000FF, 0x0000FFFF] 2 false).1 0 = 256 ∧
      GetTableColor (Append (fun s => s.length) ImPlot3DColormapData.empty "RB"
        [0xFF0000FF, 0x0000FFFF] 2 false).1 0 0 = 0xFF0000FF ∧
      GetTableColor (Append (fun s => s.length) ImPlot3DColormapData.empty "RB"
        [0xFF0000FF, 0x0000FFFF] 2 false).1 0 255 = 0x0000FFFF) := by
  have h := claim_C1 (fun s => s.length) ImPlot3DColormapData.empty "RB"
    [0xFF0000FF, 0x0000FFFF] (by decide) (by decide) (by decide) (by decide)
  exact ⟨⟨by decide, by decide, by decide, by decide⟩, h.1, h.2.2.1, h.2.2.2⟩

open ImPlot3DColormapData in
/-- C2: `LerpTable` selects index `clamp(floor(size*t), 0, size-1)` for
qualitative colormaps and index `round((size-1)*t)` for continuous ones; in
particular the two-key continuous `RB` colormap has table size 256 and
`LerpTable` at `t = 0.5` returns the table entry at index
`round(255*0.5) = 128`. -/
theorem claim_C2 :
    (∀ (siz : Nat) (t : ℚ), 1 ≤ siz → 0 ≤ t → t ≤ 1 →
      lerpIdx true siz t = max 0 (min ⌊(siz : ℚ) * t⌋ ((siz : Int) - 1)) ∧
      lerpIdx false siz t = round (((siz : ℚ) - 1) * t)) ∧
    (GetTableSize (Append (fun _ => 0) ImPlot3DColormapData.empty "RB"
        [0xFF0000FF, 0x0000FFFF] 2 false).1 0 = 256 ∧
      LerpTable (Append (fun _ => 0) ImPlot3DColormapData.empty "RB"
        [0xFF0000FF, 0x0000FFFF] 2 false).1 0 (1/2) =
      GetTableColor (Append (fun _ => 0) ImPlot3DColormapData.empty "RB"
        [0xFF0000FF, 0x0000FFFF] 2 false).1 0 128) := by
  constructor
  · intro siz t hs h0 h1
    have h1s : (1 : ℚ) ≤ (siz : ℚ) := by exact_mod_cast hs
    constructor
    · unfold lerpIdx
      simp only [if_true]
      rw [cCastInt_nonneg _ (mul_nonneg (by positivity) h0),
        ImClamp_eq_max_min _ _ _ (by omega)]
    · unfold lerpIdx
      simp only [Bool.false_eq_true, if_false]
      have harg : (0 : ℚ) ≤ ((siz : ℚ) - 1) * t + 1 / 2 := by
        have := mul_nonneg (by linarith : (0 : ℚ) ≤ (siz : ℚ) - 1) h0
        linarith
      rw [cCastInt_nonneg _ harg, round_eq]
  · have hq : IsQual (Append (fun _ => 0) ImPlot3DColormapData.empty "RB"
        [0xFF0000FF, 0x0000FFFF] 2 false).1 0 = false := by decide
    have hsz : GetTableSize (Append (fun _ => 0) ImPlot3DColormapData.empty "RB"
        [0xFF0000FF, 0x0000FFFF] 2 false).1 0 = 256 := by decide
    have hidx : lerpIdx false 256 (1/2) = 128 := by
      unfold lerpIdx
      simp only [Bool.false_eq_true, if_false]
      rw [cCastInt_nonneg _ (by norm_num)]
      norm_num
    refine ⟨hsz, ?_⟩
    rw [LerpTable_eq_getTableColor _ 0 (1/2) (by rw [hq, hsz, hidx]; norm_num)]
    rw [hq, hsz, hidx]
    rfl

open ImPlot3DColormapData in
/-- Witness for C2 instantiating the general index formulas at size 256 and
`t = 0.5`. -/
theorem claim_C2_witness :
    lerpIdx true 256 (1/2) =
      max 0 (min ⌊((256 : Nat) : ℚ) * (1/2)⌋ (((256 : Nat) : Int) - 1)) ∧
    lerpIdx false 256 (1/2) = round ((((256 : Nat) : ℚ) - 1) * (1/2)) :=
  claim_C2.1 256 (1/2) (by norm_num) (by norm_num) (by norm_num)

open ImPlot3DColormapData in
/-- C9: for a registered colormap with table size at least 1 and `t ∈ [0,1]`,
the index computed by `LerpTable` lies in `[0, size-1]` in both branches, and
on a consistent registry the lookup stays inside that colormap's table segment
of the backing `Tables` store. -/
theorem claim_C9 (d : ImPlot3DColormapData) (hc : Consistent d) (cmap : Nat) (t : ℚ)
    (hj : cmap < d.Count) (hs : 1 ≤ GetTableSize d cmap) (h0 : 0 ≤ t) (h1 : t ≤ 1) :
    0 ≤ lerpIdx (IsQual d cmap) (GetTableSize d cmap) t ∧
    lerpIdx (IsQual d cmap) (GetTableSize d cmap) t ≤ (GetTableSize d cmap : Int) - 1 ∧
    d.TableOffsets.getD cmap 0 +
      (lerpIdx (IsQual d cmap) (GetTableSize d cmap) t).toNat < d.Tables.length ∧
    LerpTable d cmap t =
      GetTableColor d cmap (lerpIdx (IsQual d cmap) (GetTableSize d cmap) t).toNat := by
  obtain ⟨hb0, hb1⟩ := lerpIdx_bounds (IsQual d cmap) (GetTableSize d cmap) t hs h0 h1
  refine ⟨hb0, hb1, ?_, LerpTable_eq_getTableColor d cmap t hb0⟩
  obtain ⟨-, hoff, hsiz, htab⟩ := hc
  have hlen : d.Tables.length = (canonSizes d).sum := by
    rw [htab, canonTables_length]
  have hoffc : d.TableOffsets.getD cmap 0 = ((canonSizes d).take cmap).sum := by
    rw [hoff, offsetsOf_getD _ cmap (by rw [canonSizes_length]; exact hj)]
  have hszc : GetTableSize d cmap = (canonSizes d).getD cmap 0 := by
    rw [GetTableSize, hsiz]
  have hsum : ((canonSizes d).take cmap).sum + (canonSizes d).getD cmap 0 ≤
      (canonSizes d).sum := by
    rw [← sum_take_succ _ cmap (by rw [canonSizes_length]; exact hj)]
    exact sum_take_le _ _
  omega

open ImPlot3DColormapData in
/-- Witness for C9 on a concrete qualitative colormap at `t = 1/3`. -/
theorem claim_C9_witness :
    (Consistent (Append (fun _ => 0) ImPlot3DColormapData.empty "A"
        [10, 20, 30] 3 true).1 ∧
      0 < (Append (fun _ => 0) ImPlot3DColormapData.empty "A"
        [10, 20, 30] 3 true).1.Count ∧
      1 ≤ GetTableSize (Append (fun _ => 0) ImPlot3DColormapData.empty "A"
        [10, 20, 30] 3 true).1 0) ∧
    0 ≤ lerpIdx
      (IsQual (Append (fun _ => 0) ImPlot3DColormapData.empty "A"
        [10, 20, 30] 3 true).1 0)
      (GetTableSize (Append (fun _ => 0) ImPlot3DColormapData.empty "A"
        [10, 20, 30] 3 true).1 0) (1/3) := by
  refine ⟨⟨by decide, by decide, by decide⟩, ?_⟩
  exact (claim_C9 (Append (fun _ => 0) ImPlot3DColormapData.empty "A"
    [10, 20, 30] 3 true).1 (by decide) 0 (1/3) (by decide) (by decide)
    (by norm_num) (by norm_num)).1

open ImPlot3DColormapData in
/-- C10: after a successful `Append` returning index `idx = Count ≥ 0`, the
name-to-index lookup `GetIndex(name)` returns `idx` and `GetName(idx)` returns
the appended name. -/
theorem claim_C10 (hash : String → Nat) (d : ImPlot3DColormapData) (name : String)
    (keys : List Nat) (count : Nat) (qual : Bool) (hw : WFlen d)
    (hfree : GetIndex hash d name = -1) (hn : Char.ofNat 0 ∉ name.data) :
    (Append hash d name keys count qual).2 = (d.Count : Int) ∧
    (0 : Int) ≤ (Append hash d name keys count qual).2 ∧
    GetIndex hash (Append hash d name keys count qual).1 name = (d.Count : Int) ∧
    GetName (Append hash d name keys count qual).1 d.Count = some name.data := by
  rw [Append_success hash d name keys count qual hfree hw]
  obtain ⟨-, -, -, -, -, htx⟩ := hw
  dsimp only
  exact ⟨rfl, by positivity,
    appendState_GetIndex hash d name keys count qual,
    appendState_GetName hash d name keys count qual htx hn⟩

open ImPlot3DColormapData in
/-- Witness for C10 on a concrete successful `Append`. -/
theorem claim_C10_witness :
    (WFlen ImPlot3DColormapData.empty ∧
      GetIndex (fun s => s.length) ImPlot3DColormapData.empty "Viridis" = -1 ∧
      Char.ofNat 0 ∉ ("Viridis" : String).data) ∧
    ((Append (fun s => s.length) ImPlot3DColormapData.empty "Viridis"
        [1, 2] 2 true).2 = (0 : Int) ∧
      GetIndex (fun s => s.length) (Append (fun s => s.length)
        ImPlot3DColormapData.empty "Viridis" [1, 2] 2 true).1 "Viridis" = (0 : Int) ∧
      GetName (Append (fun s => s.length) ImPlot3DColormapData.empty "Viridis"
        [1, 2] 2 true).1 0 = some ("Viridis" : String).data) := by
  have h := claim_C10 (fun s => s.length) ImPlot3DColormapData.empty "Viridis"
    [1, 2] 2 true (by decide) (by decide) (by decide)
  exact ⟨⟨by decide, by decide, by decide⟩, h.1, h.2.2.1, h.2.2.2⟩

open ImPlot3DColormapData in
/-- C6: for every registered colormap (qualitative or continuous) on a
consistent registry, `LerpTable` at `t = 0` returns the first table entry,
which is the first key, and `LerpTable` at `t = 1` returns the last table
entry. -/
theorem claim_C6 (d : ImPlot3DColormapData) (hc : Consistent d) (cmap : Nat)
    (hj : cmap < d.Count) (hk : 1 ≤ GetKeyCount d cmap)
    (hkeys : ∀ k ∈ d.Keys, k < U32) :
    LerpTable d cmap 0 = GetTableColor d cmap 0 ∧
    LerpTable d cmap 0 = GetKeyColor d cmap 0 ∧
    LerpTable d cmap 1 = GetTableColor d cmap (GetTableSize d cmap - 1) := by
  have hkl : (GetKeys d cmap).length = GetKeyCount d cmap :=
    segWF_getKeys_length d hc.1 cmap hj
  have hs1 : 1 ≤ GetTableSize d cmap := by
    rw [consistent_getTableSize d hc cmap hj]
    exact tableSizeFor_pos _ _ (by omega)
  have hz := lerpIdx_zero (IsQual d cmap) (GetTableSize d cmap) hs1
  have hfirst : LerpTable d cmap 0 = GetTableColor d cmap 0 := by
    rw [LerpTable_eq_getTableColor d cmap 0 (by rw [hz]), hz]
    rfl
  refine ⟨hfirst, ?_, ?_⟩
  · rw [hfirst, consistent_getTableColor d hc cmap 0 hj (by omega),
      getKeyColor_eq_getKeys_getD d cmap 0 hk]
    cases hql : IsQual d cmap
    · by_cases h2 : 2 ≤ (GetKeys d cmap).length
      · refine tableFor_cont_head _ h2 ?_
        refine hkeys _ (List.mem_of_mem_drop (List.mem_of_mem_take
          (getD_mem_of_lt _ 0 0 ?_)))
        show 0 < (GetKeys d cmap).length
        omega
      · have hone : (GetKeys d cmap).length = 1 := by omega
        unfold tableFor
        simp only [Bool.false_eq_true, if_false]
        rw [hone]
        simp only [Nat.sub_self, List.range_zero, List.flatMap_nil, List.nil_append,
          List.getD_cons_zero]
        rw [getLastD_eq_getD, hone]
    · rw [tableFor_qual]
  · have ho := lerpIdx_one (IsQual d cmap) (GetTableSize d cmap) hs1
    rw [LerpTable_eq_getTableColor d cmap 1 (by rw [ho]; omega), ho]
    congr 1
    omega

open ImPlot3DColormapData in
/-- Witness for C6 on a concrete qualitative colormap. -/
theorem claim_C6_witness :
    (Consistent (Append (fun _ => 0) ImPlot3DColormapData.empty "A"
        [10, 20, 30] 3 true).1 ∧
      0 < (Append (fun _ => 0) ImPlot3DColormapData.empty "A"
        [10, 20, 30] 3 true).1.Count ∧
      1 ≤ GetKeyCount (Append (fun _ => 0) ImPlot3DColormapData.empty "A"
        [10, 20, 30] 3 true).1 0 ∧
      (∀ k ∈ (Append (fun _ => 0) ImPlot3DColormapData.empty "A"
        [10, 20, 30] 3 true).1.Keys, k < U32)) ∧
    LerpTable (Append (fun _ => 0) ImPlot3DColormapData.empty "A"
      [10, 20, 30] 3 true).1 0 0 =
      GetKeyColor (Append (fun _ => 0) ImPlot3DColormapData.empty "A"
        [10, 20, 30] 3 true).1 0 0 := by
  refine ⟨⟨by decide, by decide, by decide, by decide⟩, ?_⟩
  exact (claim_C6 (Append (fun _ => 0) ImPlot3DColormapData.empty "A"
    [10, 20, 30] 3 true).1 (by decide) 0 (by decide) (by decide) (by decide)).2.1

open ImPlot3DColormapData in
/-- C3: `SetKeyColor(cmap, idx, value)` replaces exactly one key color of
colormap `cmap` and rebuilds that colormap's table from its updated keys; for
every other registered colormap the keys, the table size and the dense-table
contents are unchanged by the call. -/
theorem claim_C3 (d : ImPlot3DColormapData) (hc : Consistent d) (cmap idx value : Nat)
    (hj : cmap < d.Count) (hi : idx < GetKeyCount d cmap) :
    GetKeyColor (SetKeyColor d cmap idx value) cmap idx = value ∧
    (∀ i, i < GetKeyCount d cmap → i ≠ idx →
      GetKeyColor (SetKeyColor d cmap idx value) cmap i = GetKeyColor d cmap i) ∧
    GetTable (SetKeyColor d cmap idx value) cmap =
      tableFor (GetKeys (SetKeyColor d cmap idx value) cmap) (IsQual d cmap) ∧
    (∀ j, j < d.Count → j ≠ cmap →
      GetKeys (SetKeyColor d cmap idx value) j = GetKeys d j ∧
      GetTableSize (SetKeyColor d cmap idx value) j = GetTableSize d j ∧
      GetTable (SetKeyColor d cmap idx value) j = GetTable d j) := by
  have hseg := hc.1
  have hkcLen : d.KeyCounts.length = d.Count := hseg.1.2.1
  have hoffc : d.KeyOffsets.getD cmap 0 = (d.KeyCounts.take cmap).sum := by
    rw [hseg.2.1, offsetsOf_getD _ cmap (by rw [hkcLen]; exact hj)]
  have hcntc : (d.KeyCounts.take (cmap + 1)).sum =
      (d.KeyCounts.take cmap).sum + d.KeyCounts.getD cmap 0 :=
    sum_take_succ _ cmap (by rw [hkcLen]; exact hj)
  have hcsum : (d.KeyCounts.take (cmap + 1)).sum ≤ d.KeyCounts.sum :=
    sum_take_le _ _
  have hklen : d.Keys.length = d.KeyCounts.sum := hseg.2.2
  unfold GetKeyCount at hi
  set dk : ImPlot3DColormapData :=
    { d with Keys := d.Keys.set (d.KeyOffsets.getD cmap 0 + idx) value } with hdk
  have hre : SetKeyColor d cmap idx value =
      { dk with
        Tables := canonTables dk
        TableSizes := canonSizes dk
        TableOffsets := offsetsOf (canonSizes dk) } := RebuildTables_eq dk
  rw [hre]
  have hGKother : ∀ j, j < d.Count → j ≠ cmap → GetKeys dk j = GetKeys d j := by
    intro j hjc hne
    show ((d.Keys.set (d.KeyOffsets.getD cmap 0 + idx) value).drop
        (d.KeyOffsets.getD j 0)).take (d.KeyCounts.getD j 0) =
      (d.Keys.drop (d.KeyOffsets.getD j 0)).take (d.KeyCounts.getD j 0)
    apply slice_set_outside
    have hoffj : d.KeyOffsets.getD j 0 = (d.KeyCounts.take j).sum := by
      rw [hseg.2.1, offsetsOf_getD _ j (by rw [hkcLen]; exact hjc)]
    rcases Nat.lt_or_ge j cmap with hlt | hge
    · right
      have h1 : (d.KeyCounts.take (j + 1)).sum ≤ (d.KeyCounts.take cmap).sum :=
        sum_take_mono _ (by omega)
      have h2 : (d.KeyCounts.take (j + 1)).sum =
          (d.KeyCounts.take j).sum + d.KeyCounts.getD j 0 :=
        sum_take_succ _ j (by rw [hkcLen]; exact hjc)
      omega
    · left
      have h1 : (d.KeyCounts.take (cmap + 1)).sum ≤ (d.KeyCounts.take j).sum :=
        sum_take_mono _ (by omega)
      omega
  have hGKlenC : (GetKeys dk cmap).length = (GetKeys d cmap).length := by
    simp [hdk, GetKeys, List.length_set]
  have hSizesEq : canonSizes dk = canonSizes d := by
    apply canonSizes_congr
    · rfl
    · intro i hic
      rcases eq_or_ne i cmap with rfl | hne
      · exact hGKlenC
      · exact congrArg List.length (hGKother i hic hne)
    · intro i _
      rfl
  have hcdr : Consistent
      { dk with
        Tables := canonTables dk
        TableSizes := canonSizes dk
        TableOffsets := offsetsOf (canonSizes dk) } := by
    refine ⟨⟨⟨?_, ?_, ?_, ?_, ?_, ?_⟩, ?_, ?_⟩, ?_, ?_, ?_⟩
    · exact hseg.1.1
    · exact hkcLen
    · exact hseg.1.2.2.1
    · show (offsetsOf (canonSizes dk)).length = d.Count
      rw [offsetsOf_length, canonSizes_length]
    · show (canonSizes dk).length = d.Count
      rw [canonSizes_length]
    · exact hseg.1.2.2.2.2.2
    · exact hseg.2.1
    · show (d.Keys.set (d.KeyOffsets.getD cmap 0 + idx) value).length = d.KeyCounts.sum
      rw [List.length_set]
      exact hklen
    · rfl
    · rfl
    · rfl
  refine ⟨?_, ?_, ?_, ?_⟩
  · show (d.Keys.set (d.KeyOffsets.getD cmap 0 + idx) value).getD
        (d.KeyOffsets.getD cmap 0 + idx) 0 = value
    apply getD_set_self
    omega
  · intro i hilt hne
    show (d.Keys.set (d.KeyOffsets.getD cmap 0 + idx) value).getD
        (d.KeyOffsets.getD cmap 0 + i) 0 =
      d.Keys.getD (d.KeyOffsets.getD cmap 0 + i) 0
    apply getD_set_ne
    omega
  · exact consistent_getTable _ hcdr cmap hj
  · intro j hjc hne
    have hGK : GetKeys
        ({ dk with
          Tables := canonTables dk
          TableSizes := canonSizes dk
          TableOffsets := offsetsOf (canonSizes dk) } : ImPlot3DColormapData) j =
        GetKeys d j := hGKother j hjc hne
    refine ⟨hGK, ?_, ?_⟩
    · show (canonSizes dk).getD j 0 = d.TableSizes.getD j 0
      rw [hSizesEq, hc.2.2.1]
    · rw [consistent_getTable _ hcdr j hjc, consistent_getTable d hc j hjc, hGK]
      rfl

open ImPlot3DColormapData in
/-- Witness for C3 on a concrete registry with two qualitative colormaps,
replacing key 1 of colormap 0 with the color 7. -/
theorem claim_C3_witness :
    (Consistent (Append (fun s => s.length) (Append (fun s => s.length)
      ImPlot3DColormapData.empty "A" [1, 2, 3] 3 true).1 "BB" [4, 5] 2 true).1 ∧ 0 < (Append (fun s => s.length) (Append (fun s => s.length)
      ImPlot3DColormapData.empty "A" [1, 2, 3] 3 true).1 "BB" [4, 5] 2 true).1.Count ∧ 1 < GetKeyCount (Append (fun s => s.length) (Append (fun s => s.length)
      ImPlot3DColormapData.empty "A" [1, 2, 3] 3 true).1 "BB" [4, 5] 2 true).1 0) ∧
    GetKeyColor (SetKeyColor (Append (fun s => s.length) (Append (fun s => s.length)
      ImPlot3DColormapData.empty "A" [1, 2, 3] 3 true).1 "BB" [4, 5] 2 true).1 0 1 7) 0 1 = 7 ∧
    GetTableSize (SetKeyColor (Append (fun s => s.length) (Append (fun s => s.length)
      ImPlot3DColormapData.empty "A" [1, 2, 3] 3 true).1 "BB" [4, 5] 2 true).1 0 1 7) 1 = GetTableSize (Append (fun s => s.length) (Append (fun s => s.length)
      ImPlot3DColormapData.empty "A" [1, 2, 3] 3 true).1 "BB" [4, 5] 2 true).1 1 := by
  refine ⟨⟨by decide, by decide, by decide⟩, ?_, ?_⟩
  · exact (claim_C3 (Append (fun s => s.length) (Append (fun s => s.length)
      ImPlot3DColormapData.empty "A" [1, 2, 3] 3 true).1 "BB" [4, 5] 2 true).1 (by decide) 0 1 7 (by decide) (by decide)).1
  · exact ((claim_C3 (Append (fun s => s.length) (Append (fun s => s.length)
      ImPlot3DColormapData.empty "A" [1, 2, 3] 3 true).1 "BB" [4, 5] 2 true).1 (by decide) 0 1 7 (by decide)
      (by decide)).2.2.2 1 (by decide) (by decide)).2.1

end ImPlot3D
